import Mathlib

/-!
Verification of `sketchfab_downloader_standalone.py` against its
natural-language specification.

The Python source is shallowly embedded: strings become `List Char`,
Python's string methods (`lower`, `strip`, `replace`, `in`, slicing,
`split`) become executable Lean functions on character lists, and the
two stateful loops (`get_user_models` pagination and the per-model
download loop of `download_author_models`) become structurally
recursive functions over explicit lists of page responses / item
environments, threading the filesystem state and request counts
explicitly.  Character-level operations (`str.lower`, `str.strip`,
`str.isalnum`) are modelled on their ASCII behaviour.
-/

/-- Python strings are modelled as lists of characters. -/
abbrev Str := List Char

/-- ASCII model of Python's per-character lowercasing: basic latin
uppercase letters (code points 65 to 90) are shifted by 32, everything
else is unchanged. -/
def pyCharLower (c : Char) : Char :=
  if 65 ≤ c.toNat ∧ c.toNat ≤ 90 then Char.ofNat (c.toNat + 32) else c

/-- Python `str.lower()`. -/
def pyLower (s : Str) : Str := s.map pyCharLower

/-- The whitespace characters stripped by Python's `str.strip()`
(ASCII subset), identified by code point: space, tab, newline,
carriage return, vertical tab, form feed. -/
def pySpace (c : Char) : Bool :=
  decide (c.toNat = 32 ∨ c.toNat = 9 ∨ c.toNat = 10 ∨ c.toNat = 13 ∨
    c.toNat = 11 ∨ c.toNat = 12)

/-- Drop leading whitespace. -/
def trimLeft (s : Str) : Str := s.dropWhile pySpace

/-- Python `str.strip()`: drop leading whitespace, then reverse,
drop leading (originally trailing) whitespace, reverse back. -/
def pyStrip (s : Str) : Str := (trimLeft (trimLeft s).reverse).reverse

/-- Python `str.replace(old, new)` for single characters. -/
def replaceChar (old new : Char) (s : Str) : Str :=
  s.map fun c => if c = old then new else c

/-- Line 121/122: `.replace('-', ' ').replace('_', ' ')`. -/
def normalizeSeparators (s : Str) : Str :=
  replaceChar '_' ' ' (replaceChar '-' ' ' s)

/-- Boolean test that `needle` occurs at the start of `hay`. -/
def startsWithStr : Str → Str → Bool
  | [], _ => true
  | _ :: _, [] => false
  | a :: as, b :: bs => a == b && startsWithStr as bs

/-- Python's substring test `needle in hay`. -/
def pyIn (needle : Str) : Str → Bool
  | [] => startsWithStr needle []
  | c :: t => startsWithStr needle (c :: t) || pyIn needle t

/-- Lines 130-132: the special acceptance rule for the allowed token
`"by"`, applied to the separator-normalized label: the label contains
`"attribution"`, or contains both `"cc"` and `"by"`, and contains none
of the six restrictive-variant markers. -/
def byRule (n : Str) : Bool :=
  (pyIn "attribution".data n || (pyIn "cc".data n && pyIn "by".data n)) &&
  !pyIn "nc".data n && !pyIn "nd".data n && !pyIn "sa".data n &&
  !pyIn "noncommercial".data n && !pyIn "noderivatives".data n &&
  !pyIn "sharealike".data n

/-- Lines 112-139: one iteration of the license-matching loop, deciding
whether a single allowed token accepts the (lowercased, stripped)
license label.  The four acceptance routes of the source, in order:
exact equality (line 116), equality after separator normalization
(line 124), the `"by"` special rule (lines 129-134) and the `"cc0"`
special rule (line 137). -/
def tokenMatches (licenseLabelLower : Str) (allowed : Str) : Bool :=
  let allowedLower := pyStrip (pyLower allowed)
  let licenseNormalized := normalizeSeparators licenseLabelLower
  let allowedNormalized := normalizeSeparators allowedLower
  (licenseLabelLower == allowedLower) ||
  (licenseNormalized == allowedNormalized) ||
  (allowedLower == "by".data && byRule licenseNormalized) ||
  (allowedLower == "cc0".data &&
    (pyIn "cc0".data licenseNormalized || pyIn "cc 0".data licenseNormalized))

/-- Lines 97 and 109: the label is lowercased when read from the entry
(line 97) and lowercased and stripped again at the start of the check
(line 109). -/
def normalizeLabel (label : Str) : Str := pyStrip (pyLower (pyLower label))

/-- Lines 64 and 109-139: the License Matching Predicate.  The allowed
tokens are lowercased once up front (line 64); the loop sets
`license_matches` as soon as some token accepts the label, so the loop
is the boolean `any` over tokens. -/
def licenseMatch (label : Str) (allowed : List Str) : Bool :=
  (allowed.map pyLower).any (tokenMatches (normalizeLabel label))

/-- Line 62: the default allowed license tokens. -/
def defaultAllowedLicenses : List Str :=
  ["cc0".data, "by".data, "free standard".data, "standard".data]

/-- The spec's normalization of a label: lowercase, trim whitespace,
replace hyphens and underscores by spaces. -/
def specNormalize (label : Str) : Str :=
  normalizeSeparators (pyStrip (pyLower label))

/-- The characterization of `"by"`-token matching asserted by the
claim: the normalized label contains `"attribution"`, or contains both
`"cc"` and `"by"`, and does not contain any of the six excluded
substrings. -/
def claimByCharacterization (label : Str) : Bool :=
  let n := specNormalize label
  (pyIn "attribution".data n || (pyIn "cc".data n && pyIn "by".data n)) &&
  !pyIn "nc".data n && !pyIn "nd".data n && !pyIn "sa".data n &&
  !pyIn "noncommercial".data n && !pyIn "noderivatives".data n &&
  !pyIn "sharealike".data n

-- Character-level facts about the ASCII lowercasing model.

theorem charToNat_ofNat_valid (n : Nat) (h : n.isValidChar) :
    (Char.ofNat n).toNat = n := by
  rw [Char.ofNat, dif_pos h]
  rfl

theorem pyCharLower_toNat_of_upper (c : Char)
    (h : 65 ≤ c.toNat ∧ c.toNat ≤ 90) :
    (pyCharLower c).toNat = c.toNat + 32 := by
  rw [pyCharLower, if_pos h]
  exact charToNat_ofNat_valid _ (Or.inl (by omega))

theorem pyCharLower_eq_of_not_upper (c : Char)
    (h : ¬(65 ≤ c.toNat ∧ c.toNat ≤ 90)) : pyCharLower c = c := by
  rw [pyCharLower, if_neg h]

theorem pyCharLower_idem (c : Char) :
    pyCharLower (pyCharLower c) = pyCharLower c := by
  by_cases h : 65 ≤ c.toNat ∧ c.toNat ≤ 90
  · apply pyCharLower_eq_of_not_upper
    rw [pyCharLower_toNat_of_upper c h]
    omega
  · rw [pyCharLower_eq_of_not_upper c h, pyCharLower_eq_of_not_upper c h]

theorem pySpace_pyCharLower (c : Char) :
    pySpace (pyCharLower c) = pySpace c := by
  by_cases h : 65 ≤ c.toNat ∧ c.toNat ≤ 90
  · have ht : (pyCharLower c).toNat = c.toNat + 32 :=
      pyCharLower_toNat_of_upper c h
    simp only [pySpace, ht]
    apply decide_eq_decide.mpr
    omega
  · rw [pyCharLower_eq_of_not_upper c h]

-- String-level normalization lemmas.

theorem pyLower_pyLower (s : Str) : pyLower (pyLower s) = pyLower s := by
  simp only [pyLower, List.map_map]
  apply List.map_congr_left
  intro c _
  exact pyCharLower_idem c

theorem dropWhile_pySpace_pyLower (s : Str) :
    (pyLower s).dropWhile pySpace = pyLower (s.dropWhile pySpace) := by
  rw [pyLower, List.dropWhile_map]
  have : (pySpace ∘ pyCharLower) = pySpace := by
    funext c
    exact pySpace_pyCharLower c
  rw [this]
  rfl

theorem pyLower_reverse (s : Str) :
    pyLower s.reverse = (pyLower s).reverse := by
  simp [pyLower, List.map_reverse]

theorem pyStrip_pyLower (s : Str) :
    pyStrip (pyLower s) = pyLower (pyStrip s) := by
  rw [pyStrip, pyStrip, trimLeft, trimLeft,
    dropWhile_pySpace_pyLower, ← pyLower_reverse, trimLeft, trimLeft,
    dropWhile_pySpace_pyLower, pyLower_reverse]

theorem dropWhile_idem {α : Type} (p : α → Bool) (l : List α) :
    (l.dropWhile p).dropWhile p = l.dropWhile p := by
  induction l with
  | nil => rfl
  | cons a t ih =>
    by_cases h : p a
    · rw [List.dropWhile_cons_of_pos h, ih]
    · rw [List.dropWhile_cons_of_neg (by simp [h]),
        List.dropWhile_cons_of_neg (by simp [h])]

theorem dropWhile_eq_self_of_head {α : Type} (p : α → Bool) (l : List α)
    (h : ∀ a, l.head? = some a → p a = false) : l.dropWhile p = l := by
  cases l with
  | nil => rfl
  | cons a t =>
    rw [List.dropWhile_cons_of_neg]
    simp [h a rfl]

theorem head_trimLeft_not_space (s : Str) (a : Char)
    (h : (trimLeft s).head? = some a) : pySpace a = false := by
  have hw := List.head?_dropWhile_not pySpace s
  rw [show s.dropWhile pySpace = trimLeft s from rfl, h] at hw
  exact hw

theorem pyStrip_idem (s : Str) : pyStrip (pyStrip s) = pyStrip s := by
  have key : ∀ a, (trimLeft (trimLeft s).reverse).getLast? = some a →
      pySpace a = false := by
    intro a ha
    have hsplit :
        (trimLeft s).reverse.takeWhile pySpace ++
          (trimLeft s).reverse.dropWhile pySpace = (trimLeft s).reverse :=
      List.takeWhile_append_dropWhile pySpace _
    have hlast : (trimLeft s).reverse.getLast? = some a := by
      rw [← hsplit, List.getLast?_append]
      rw [show (trimLeft s).reverse.dropWhile pySpace =
        trimLeft (trimLeft s).reverse from rfl, ha]
      rfl
    rw [List.getLast?_reverse] at hlast
    exact head_trimLeft_not_space s a hlast
  rw [pyStrip, pyStrip]
  have h1 : trimLeft (trimLeft (trimLeft s).reverse).reverse =
      (trimLeft (trimLeft s).reverse).reverse := by
    apply dropWhile_eq_self_of_head
    intro a ha
    rw [List.head?_reverse] at ha
    exact key a ha
  rw [h1, List.reverse_reverse, trimLeft, trimLeft, dropWhile_idem]

theorem pyStrip_pyStrip_pyLower (s : Str) :
    pyStrip (pyLower (pyStrip (pyLower s))) = pyStrip (pyLower s) := by
  rw [pyStrip_pyLower, pyStrip_idem, ← pyStrip_pyLower, pyLower_pyLower]

theorem normalizeLabel_idemlike (s : Str) :
    normalizeLabel (pyStrip (pyLower s)) = normalizeLabel s := by
  rw [normalizeLabel, normalizeLabel, pyLower_pyLower, pyLower_pyLower]
  exact pyStrip_pyStrip_pyLower s

theorem eq_of_strEq {a b : Str} (h : (a == b) = true) : a = b :=
  eq_of_beq h

/-- Claim C1, counterexample: the claimed characterization of matching
with the allowed token `"by"` is violated at the label `"by"` itself.
The code accepts it through the exact-equality branch (line 116), while
the claimed condition (contains `"attribution"`, or both `"cc"` and
`"by"`, without excluded substrings) evaluates to false on it. -/
theorem c1_counterexample :
    licenseMatch "by".data ["by".data] = true ∧
    claimByCharacterization "by".data = false := by
  constructor
  · decide
  · decide

/-- Claim C1 (amended): for every license label L, matching with the
single allowed token `"by"` returns true exactly when the normalized
label is exactly `"by"`, or it contains `"attribution"`, or contains
both `"cc"` and `"by"`, and (in the contains cases) does not contain
any of `"nc"`, `"nd"`, `"sa"`, `"noncommercial"`, `"noderivatives"`,
`"sharealike"`; in particular `"CC Attribution"` matches while
`"CC-BY-SA 4.0"` and `"CC-BY-NC"` do not. -/
theorem c1_by_token_characterization :
    (∀ L : Str, licenseMatch L ["by".data] =
      ((specNormalize L == "by".data) || claimByCharacterization L)) ∧
    licenseMatch "CC Attribution".data ["by".data] = true ∧
    licenseMatch "CC-BY-SA 4.0".data ["by".data] = false ∧
    licenseMatch "CC-BY-NC".data ["by".data] = false := by
  refine ⟨fun L => ?_, by decide, by decide, by decide⟩
  have hlow : pyLower (pyLower L) = pyLower L := pyLower_pyLower L
  have hb1 : pyLower "by".data = "by".data := by decide
  have hb2 : pyStrip (pyLower "by".data) = "by".data := by decide
  have hb3 : normalizeSeparators "by".data = "by".data := by decide
  have hb4 : ("by".data == "by".data) = true := by decide
  have hb5 : ("by".data == "cc0".data) = false := by decide
  have step1 : licenseMatch L ["by".data] =
      tokenMatches (pyStrip (pyLower L)) "by".data := by
    simp only [licenseMatch, List.map_cons, List.map_nil, List.any_cons,
      List.any_nil, Bool.or_false, hb1, normalizeLabel, hlow]
  have step2 : tokenMatches (pyStrip (pyLower L)) "by".data =
      ((pyStrip (pyLower L) == "by".data) ||
       ((normalizeSeparators (pyStrip (pyLower L)) == "by".data) ||
        byRule (normalizeSeparators (pyStrip (pyLower L))))) := by
    simp only [tokenMatches, hb2, hb3, hb4, hb5, Bool.true_and,
      Bool.false_and, Bool.or_false, Bool.or_assoc]
  rw [step1, step2]
  show _ = ((normalizeSeparators (pyStrip (pyLower L)) == "by".data) ||
    byRule (normalizeSeparators (pyStrip (pyLower L))))
  cases hA : (pyStrip (pyLower L) == "by".data)
  · rw [Bool.false_or]
  · have hAeq : pyStrip (pyLower L) = "by".data := eq_of_strEq hA
    rw [hAeq]
    decide

/-- Claim C2, counterexample: the predicate is not invariant under the
spec's normalization of the label.  The label "-by" does not match the
token list containing only `"by"`, but its normalization " by" does
(after the code lowercases and strips it again, it equals `"by"` and
matches exactly). -/
theorem c2_counterexample :
    licenseMatch (specNormalize "-by".data) ["by".data] = true ∧
    licenseMatch "-by".data ["by".data] = false := by
  constructor
  · decide
  · decide

/-- Claim C2 (amended): the License Matching Predicate is a function of
its arguments (deterministic) and is invariant under lowercasing and
whitespace-trimming of the label; it is not invariant under the full
normalization that also replaces hyphens and underscores by spaces. -/
theorem c2_match_lower_strip_invariant (L : Str) (T : List Str) :
    licenseMatch (pyStrip (pyLower L)) T = licenseMatch L T := by
  rw [licenseMatch, licenseMatch, normalizeLabel_idemlike]

/-- One page response of the listing endpoint, as consumed by
`get_user_models` (lines 33-50): an HTTP status code, the `"results"`
entry list, and the optional `"next"` page pointer. -/
structure PageResponse (α : Type) where
  statusCode : Nat
  results : List α
  nextUrl : Option Str
  deriving DecidableEq

/-- Lines 33-50: the pagination loop of `get_user_models`, embedded as
a recursion over the sequence of page responses the server returns for
the successive requests.  `acc` is the accumulated `models` list and
`n` the number of page requests issued so far.  The loop body: issue
one request (consume one response); a non-200 status breaks out of the
loop; otherwise the page's results are appended and the loop continues
exactly when a next pointer is present. -/
def getUserModelsLoop {α : Type} (acc : List α) (n : Nat) :
    List (PageResponse α) → List α × Nat
  | [] => (acc, n)
  | r :: rest =>
    if r.statusCode ≠ 200 then (acc, n + 1)
    else
      match r.nextUrl with
      | none => (acc ++ r.results, n + 1)
      | some _ => getUserModelsLoop (acc ++ r.results) (n + 1) rest

/-- Lines 22-52: `get_user_models`.  The initial URL is always present,
so the first response is always consumed; the function returns the
accumulated entry list together with the number of page requests
issued. -/
def get_user_models {α : Type} (responses : List (PageResponse α)) :
    List α × Nat :=
  getUserModelsLoop [] 0 responses

theorem getUserModelsLoop_append {α : Type} (front : List (PageResponse α))
    (l : List (PageResponse α)) (acc : List α) (n : Nat)
    (hgood : ∀ r ∈ front, r.statusCode = 200 ∧ r.nextUrl.isSome) :
    getUserModelsLoop acc n (front ++ l) =
      getUserModelsLoop (acc ++ (front.map (·.results)).flatten)
        (n + front.length) l := by
  induction front generalizing acc n with
  | nil => simp [List.flatten]
  | cons r front ih =>
    have hr := hgood r (by simp)
    obtain ⟨u, hu⟩ := Option.isSome_iff_exists.mp hr.2
    rw [List.cons_append, getUserModelsLoop, if_neg (by simp [hr.1]), hu]
    rw [ih _ _ (fun x hx => hgood x (by simp [hx]))]
    simp [List.flatten, List.append_assoc, Nat.add_comm, Nat.add_assoc,
      Nat.add_left_comm]

/-- Claim C3: for a sequence of pages in which every page is successful,
every page but the last carries a next pointer and the last carries
none, `get_user_models` issues exactly one request per page and returns
the concatenation of all pages' entry lists in order. -/
theorem c3_pagination_termination {α : Type}
    (front : List (PageResponse α)) (last : PageResponse α)
    (hgood : ∀ r ∈ front, r.statusCode = 200 ∧ r.nextUrl.isSome)
    (hlast200 : last.statusCode = 200) (hlastnone : last.nextUrl = none) :
    get_user_models (front ++ [last]) =
      (((front ++ [last]).map (·.results)).flatten, (front ++ [last]).length) := by
  rw [get_user_models, getUserModelsLoop_append front [last] [] 0 hgood]
  rw [getUserModelsLoop, if_neg (by simp [hlast200]), hlastnone]
  simp [List.flatten]

/-- Claim C3, witness: a concrete two-page catalog; the fetcher issues
two requests and concatenates the two pages' entries in order. -/
theorem c3_pagination_termination_witness :
    get_user_models
      [⟨200, [10, 11], some "n".data⟩, ⟨200, [12], none⟩] =
      ([10, 11, 12], 2) := by
  have h := c3_pagination_termination
    [(⟨200, [10, 11], some "n".data⟩ : PageResponse Nat)] ⟨200, [12], none⟩
    (by intro r hr
        simp only [List.mem_singleton] at hr
        subst hr
        exact ⟨rfl, rfl⟩)
    rfl rfl
  simpa using h

/-- Claim C4: if an early page fails, pagination stops at that page:
the fetcher returns exactly the entries accumulated from the preceding
successful pages and issues no further requests. -/
theorem c4_partial_catalog {α : Type}
    (front : List (PageResponse α)) (bad : PageResponse α)
    (rest : List (PageResponse α))
    (hgood : ∀ r ∈ front, r.statusCode = 200 ∧ r.nextUrl.isSome)
    (hbad : bad.statusCode ≠ 200) :
    get_user_models (front ++ bad :: rest) =
      ((front.map (·.results)).flatten, front.length + 1) := by
  rw [get_user_models, getUserModelsLoop_append front (bad :: rest) [] 0 hgood]
  rw [getUserModelsLoop, if_pos hbad]
  simp

/-- Claim C4, witness: page 2 of 3 returns status 500; the result is
exactly the entries of page 1, after exactly 2 requests. -/
theorem c4_partial_catalog_witness :
    get_user_models
      [⟨200, [10, 11], some "n".data⟩, ⟨500, [12], some "m".data⟩,
       ⟨200, [13], none⟩] = ([10, 11], 2) := by
  have h := c4_partial_catalog
    [(⟨200, [10, 11], some "n".data⟩ : PageResponse Nat)]
    ⟨500, [12], some "m".data⟩ [⟨200, [13], none⟩]
    (by intro r hr
        simp only [List.mem_singleton] at hr
        subst hr
        exact ⟨rfl, rfl⟩)
    (by decide)
  simpa using h

/-- Python `str.isalnum()` (ASCII model). -/
def pyIsAlnum (c : Char) : Bool := c.isAlphanum

/-- Line 100: the character filter of the sanitizer: keep alphanumeric
characters, spaces, hyphens and underscores. -/
def sanitizeKeep (c : Char) : Bool :=
  pyIsAlnum c || c == ' ' || c == '-' || c == '_'

/-- Lines 100-101: `safe_name`: filter the display name through
`sanitizeKeep`, strip surrounding whitespace, truncate to 100
characters. -/
def safe_name (model_name : Str) : Str :=
  (pyStrip (model_name.filter sanitizeKeep)).take 100

/-- Python `url.split("/")[-1]`: the text after the last slash. -/
def lastSegment (url : Str) : Str :=
  (url.reverse.takeWhile (fun c => c != '/')).reverse

/-- Python `url.split(".")[-1]`: the text after the last dot. -/
def afterLastDot (s : Str) : Str :=
  (s.reverse.takeWhile (fun c => c != '.')).reverse

/-- Python `s.split("?")[0]`: the text before the first question mark. -/
def beforeFirstQuery (s : Str) : Str := s.takeWhile (fun c => c != '?')

/-- Lines 177-179: the file extension: `".zip"` unless the text after
the URL's last slash contains a dot, in which case a dot followed by
the text after the URL's last dot, cut at the first question mark. -/
def deriveExt (url : Str) : Str :=
  if '.' ∈ lastSegment url then
    '.' :: beforeFirstQuery (afterLastDot url)
  else ".zip".data

/-- The claim's description of the extension: derived from the final
path segment (text after the last slash): the text after the segment's
last dot with any query string stripped, defaulting to `".zip"` exactly
when the segment contains no dot. -/
def claimExt (url : Str) : Str :=
  if '.' ∈ lastSegment url then
    '.' :: beforeFirstQuery (afterLastDot (lastSegment url))
  else ".zip".data

/-- A catalog entry as consumed by the download loop (lines 93-97):
identifier, display name, downloadability flag, license label. -/
structure Model where
  uid : Str
  name : Str
  isDownloadable : Bool
  licenseLabel : Str
  deriving DecidableEq

/-- Line 181: the destination filename: the sanitized name, an
underscore, the identifier, then the extension derived from the
resolved download URL. -/
def downloadFilename (m : Model) (url : Str) : Str :=
  safe_name m.name ++ "_".data ++ m.uid ++ deriveExt url

/-- The kind of a Python exception raised inside the per-item `try`
block: transport-layer (`requests` errors, timeouts, bad payload
status), JSON decoding errors from `response.json()`, filesystem
errors from `open`/`write`, or anything else. -/
inductive ExcKind
  | transport
  | jsonDecode
  | filesystem
  | other
  deriving DecidableEq

/-- Outcome of one catalog entry, matching the three counters of lines
88-90: `successful`, `failed`, `skipped_license`. -/
inductive Outcome
  | success
  | failed
  | skippedLicense
  deriving DecidableEq

/-- The environment one catalog entry meets during the download phase:
the behaviour of the download-resolution request (lines 154-155), of
`response.json()` (line 162), the two candidate source fields (lines
165-169), and the behaviour of the payload transfer (lines 192-207). -/
structure ItemEnv where
  resolutionRaises : Option ExcKind
  resolutionStatus : Nat
  jsonRaises : Bool
  sourceUrl : Option Str
  gltfUrl : Option Str
  downloadRaises : Option ExcKind
  writeRaises : Option ExcKind
  deriving DecidableEq

/-- Lines 165-169: the download URL: the `"source"` field's URL if
present, else the `"gltf"` field's URL, else nothing. -/
def resolveUrl (env : ItemEnv) : Option Str :=
  match env.sourceUrl with
  | some u => some u
  | none => env.gltfUrl

/-- Result of processing one catalog entry: its outcome tally, the
filesystem contents afterwards, the number of download-resolution
requests issued, and the number of payload-transfer requests issued. -/
structure ItemResult where
  outcome : Outcome
  fs : List Str
  resolutionRequests : Nat
  transferRequests : Nat
  deriving DecidableEq

/-- Lines 141-216: processing of one catalog entry.  In source order:
the license check (lines 141-144), the downloadability check (lines
146-149), then inside the `try` block the resolution request (which
may raise or return a non-200 status), `response.json()` (which may
raise), the extraction of a download URL, the extension and filepath
computation, the already-exists check (lines 184-189), and the payload
transfer and file write (lines 192-210).  The bare `except Exception`
handler (line 212) turns any raised exception into a `failed` tally.
A write failure happens after `open`, so it leaves a (partial) file on
disk. -/
def processItem (allowed : List Str) (m : Model) (env : ItemEnv)
    (fs : List Str) : ItemResult :=
  if licenseMatch m.licenseLabel allowed = false then
    ⟨.skippedLicense, fs, 0, 0⟩
  else if m.isDownloadable = false then
    ⟨.failed, fs, 0, 0⟩
  else if env.resolutionRaises.isSome then
    ⟨.failed, fs, 1, 0⟩
  else if env.resolutionStatus ≠ 200 then
    ⟨.failed, fs, 1, 0⟩
  else if env.jsonRaises then
    ⟨.failed, fs, 1, 0⟩
  else
    match resolveUrl env with
    | none => ⟨.failed, fs, 1, 0⟩
    | some url =>
      if downloadFilename m url ∈ fs then
        ⟨.success, fs, 1, 0⟩
      else if env.downloadRaises.isSome then
        ⟨.failed, fs, 1, 1⟩
      else if env.writeRaises.isSome then
        ⟨.failed, downloadFilename m url :: fs, 1, 1⟩
      else
        ⟨.success, downloadFilename m url :: fs, 1, 1⟩

/-- Lines 92-216: the download loop over the whole catalog, producing
the per-entry list of (outcome, resolution requests, transfers) and
the final filesystem contents. -/
def runDownloader (allowed : List Str) :
    List (Model × ItemEnv) → List Str →
      List (Outcome × Nat × Nat) × List Str
  | [], fs => ([], fs)
  | (m, env) :: rest, fs =>
    let r := processItem allowed m env fs
    let p := runDownloader allowed rest r.fs
    ((r.outcome, r.resolutionRequests, r.transferRequests) :: p.1, p.2)

theorem takeWhile_append_left {α : Type} (p : α → Bool) (l₁ l₂ : List α)
    (h : ∃ x ∈ l₁, p x = false) :
    (l₁ ++ l₂).takeWhile p = l₁.takeWhile p := by
  induction l₁ with
  | nil =>
    obtain ⟨x, hx, _⟩ := h
    cases hx
  | cons a t ih =>
    by_cases ha : p a = true
    · rw [List.cons_append, List.takeWhile_cons_of_pos ha,
        List.takeWhile_cons_of_pos ha]
      obtain ⟨x, hx, hpx⟩ := h
      rcases List.mem_cons.mp hx with hxa | hx'
      · rw [hxa] at hpx
        rw [ha] at hpx
        cases hpx
      · rw [ih ⟨x, hx', hpx⟩]
    · rw [List.cons_append, List.takeWhile_cons_of_neg ha,
        List.takeWhile_cons_of_neg ha]

theorem afterLastDot_lastSegment (url : Str) (h : '.' ∈ lastSegment url) :
    afterLastDot url = afterLastDot (lastSegment url) := by
  have hmem : '.' ∈ url.reverse.takeWhile (fun c => c != '/') := by
    rw [lastSegment] at h
    exact List.mem_reverse.mp h
  have key : url.reverse.takeWhile (fun c => c != '.') =
      (url.reverse.takeWhile (fun c => c != '/')).takeWhile
        (fun c => c != '.') := by
    conv_lhs => rw [← List.takeWhile_append_dropWhile
      (fun c => c != '/') url.reverse]
    exact takeWhile_append_left _ _ _ ⟨'.', hmem, by decide⟩
  rw [afterLastDot, afterLastDot, lastSegment, List.reverse_reverse, key]

/-- Claim C7: the extension computed by the code (a dot plus the text
after the whole URL's last dot, stripped at the first question mark,
defaulting to ".zip" when the final path segment has no dot) agrees,
for every URL, with the claim's description in terms of the final path
segment: when the segment contains a dot, the URL's last dot is the
segment's last dot. -/
theorem c7_extension_derivation (url : Str) : deriveExt url = claimExt url := by
  rw [deriveExt, claimExt]
  by_cases h : '.' ∈ lastSegment url
  · rw [if_pos h, if_pos h, afterLastDot_lastSegment url h]
  · rw [if_neg h, if_neg h]

theorem pyStrip_subset (s : Str) : pyStrip s ⊆ s := by
  intro a ha
  rw [pyStrip, List.mem_reverse] at ha
  have h1 := List.dropWhile_subset (l := (trimLeft s).reverse) pySpace ha
  rw [List.mem_reverse] at h1
  exact List.dropWhile_subset pySpace h1

theorem safe_name_chars (n : Str) :
    ∀ c ∈ safe_name n, sanitizeKeep c = true := by
  intro c hc
  have h1 := List.take_subset 100 _ hc
  have h2 := pyStrip_subset _ h1
  exact (List.mem_filter.mp h2).2

theorem safe_name_length (n : Str) : (safe_name n).length ≤ 100 := by
  rw [safe_name, List.length_take]
  exact Nat.min_le_left _ _

theorem deriveExt_valid (url : Str) :
    ∃ t, deriveExt url = '.' :: t ∧ '.' ∉ t := by
  rw [deriveExt]
  by_cases h : '.' ∈ lastSegment url
  · refine ⟨beforeFirstQuery (afterLastDot url), by rw [if_pos h], ?_⟩
    intro hmem
    have h1 := List.takeWhile_subset (l := afterLastDot url)
      (fun c => c != '?') hmem
    rw [afterLastDot, List.mem_reverse] at h1
    have h2 := List.mem_takeWhile_imp h1
    simp at h2
  · exact ⟨"zip".data, by rw [if_neg h], by decide⟩

theorem uid_ext_append_inj (u1 u2 t1 t2 : Str)
    (h1 : '.' ∉ t1) (h2 : '.' ∉ t2)
    (heq : u1 ++ '.' :: t1 = u2 ++ '.' :: t2) : u1 = u2 := by
  induction u1 generalizing u2 with
  | nil =>
    cases u2 with
    | nil => rfl
    | cons b bs =>
      simp only [List.nil_append, List.cons_append, List.cons.injEq] at heq
      exact absurd (heq.2 ▸ List.mem_append.mpr
        (Or.inr (List.mem_cons_self '.' t2))) h1
  | cons a as ih =>
    cases u2 with
    | nil =>
      simp only [List.cons_append, List.nil_append, List.cons.injEq] at heq
      exact absurd (heq.2 ▸ List.mem_append.mpr
        (Or.inr (List.mem_cons_self '.' t1))) h2
    | cons b bs =>
      simp only [List.cons_append, List.cons.injEq] at heq
      rw [heq.1, ih bs heq.2]

/-- Claim C5: the sanitized display name used in the destination
filename contains only alphanumerics, spaces, hyphens and underscores
and is at most 100 characters long; and since the entry identifier is
always appended (followed by an extension consisting of a dot and a
dot-free tail), two entries with identical sanitized names but
distinct identifiers always get distinct filenames. -/
theorem c5_sanitized_filename (m1 m2 : Model) (url1 url2 : Str)
    (hn : safe_name m1.name = safe_name m2.name) (hu : m1.uid ≠ m2.uid) :
    ((safe_name m1.name).length ≤ 100 ∧
      ∀ c ∈ safe_name m1.name, sanitizeKeep c = true) ∧
    downloadFilename m1 url1 ≠ downloadFilename m2 url2 := by
  refine ⟨⟨safe_name_length _, safe_name_chars _⟩, ?_⟩
  intro h
  obtain ⟨t1, he1, hd1⟩ := deriveExt_valid url1
  obtain ⟨t2, he2, hd2⟩ := deriveExt_valid url2
  rw [downloadFilename, downloadFilename, hn, he1, he2,
    List.append_assoc, List.append_assoc, List.append_assoc,
    List.append_assoc] at h
  have h' := List.append_cancel_left (List.append_cancel_left h)
  exact hu (uid_ext_append_inj _ _ _ _ hd1 hd2 h')

/-- Claim C5, witness: the display name "Robot/Model:v2*" sanitizes to
a clean short string, and two entries with that same display name but
different identifiers get different filenames. -/
theorem c5_sanitized_filename_witness :
    (((safe_name "Robot/Model:v2*".data).length ≤ 100 ∧
      ∀ c ∈ safe_name "Robot/Model:v2*".data, sanitizeKeep c = true) ∧
    downloadFilename ⟨"a1".data, "Robot/Model:v2*".data, true, "cc0".data⟩
        "x/y.zip".data ≠
      downloadFilename ⟨"b2".data, "Robot/Model:v2*".data, true, "cc0".data⟩
        "x/y".data) := by
  exact c5_sanitized_filename
    ⟨"a1".data, "Robot/Model:v2*".data, true, "cc0".data⟩
    ⟨"b2".data, "Robot/Model:v2*".data, true, "cc0".data⟩
    "x/y.zip".data "x/y".data rfl (by decide)

/-- Claim C6: entries whose license label fails the predicate are
tallied skipped-by-license with zero resolution requests and zero
transfers, whatever the downloadability flag (the license check takes
precedence); entries that pass the license check but are not
downloadable are tallied failed, also before any network call. -/
theorem c6_no_resolution_before_gates (allowed : List Str) (m : Model)
    (env : ItemEnv) (fs : List Str) :
    (licenseMatch m.licenseLabel allowed = false →
      processItem allowed m env fs =
        ⟨Outcome.skippedLicense, fs, 0, 0⟩) ∧
    (licenseMatch m.licenseLabel allowed = true →
      m.isDownloadable = false →
      processItem allowed m env fs = ⟨Outcome.failed, fs, 0, 0⟩) := by
  constructor
  · intro h
    rw [processItem, if_pos h]
  · intro h1 h2
    rw [processItem, if_neg (by simp [h1]), if_pos h2]

/-- Claim C6, witness: a non-matching license on a non-downloadable
entry is tallied skipped-by-license (precedence), and a matching
license on a non-downloadable entry is tallied failed; both with zero
resolution requests. -/
theorem c6_no_resolution_before_gates_witness :
    (processItem defaultAllowedLicenses
      ⟨"u1".data, "A".data, false, "all rights reserved".data⟩
      ⟨none, 200, false, none, none, none, none⟩ [] =
      ⟨Outcome.skippedLicense, [], 0, 0⟩) ∧
    (processItem defaultAllowedLicenses
      ⟨"u2".data, "B".data, false, "cc0".data⟩
      ⟨none, 200, false, none, none, none, none⟩ [] =
      ⟨Outcome.failed, [], 0, 0⟩) := by
  constructor
  · exact (c6_no_resolution_before_gates defaultAllowedLicenses
      ⟨"u1".data, "A".data, false, "all rights reserved".data⟩
      ⟨none, 200, false, none, none, none, none⟩ []).1 (by decide)
  · exact (c6_no_resolution_before_gates defaultAllowedLicenses
      ⟨"u2".data, "B".data, false, "cc0".data⟩
      ⟨none, 200, false, none, none, none, none⟩ []).2 (by decide) rfl

/-- Number of per-entry results tallied with outcome `o`. -/
def countOutcome (o : Outcome) (rs : List (Outcome × Nat × Nat)) : Nat :=
  rs.countP (fun r => r.1 == o)

theorem runDownloader_length (allowed : List Str)
    (items : List (Model × ItemEnv)) :
    ∀ fs : List Str,
      ((runDownloader allowed items fs).1).length = items.length := by
  induction items with
  | nil => intro fs; rfl
  | cons it rest ih =>
    intro fs
    obtain ⟨m, env⟩ := it
    simp only [runDownloader, List.length_cons, ih]

theorem countOutcome_partition (rs : List (Outcome × Nat × Nat)) :
    countOutcome Outcome.success rs + countOutcome Outcome.failed rs +
      countOutcome Outcome.skippedLicense rs = rs.length := by
  induction rs with
  | nil => rfl
  | cons r t ih =>
    simp only [countOutcome, List.countP_cons, List.length_cons] at *
    cases h : r.1 <;> simp [h] <;> omega

/-- Claim C10 (implicit): every catalog entry is tallied with exactly
one of the three outcomes, so the three counters printed in the final
summary sum to the number of catalog entries. -/
theorem c10_counters_sum (allowed : List Str)
    (items : List (Model × ItemEnv)) (fs : List Str) :
    countOutcome Outcome.success (runDownloader allowed items fs).1 +
      countOutcome Outcome.failed (runDownloader allowed items fs).1 +
      countOutcome Outcome.skippedLicense (runDownloader allowed items fs).1 =
      items.length := by
  rw [countOutcome_partition, runDownloader_length]

/-- Claim C9, counterexample: a non-transport exception (a JSON
decoding error from `response.json()`) raised while processing the
first item does not propagate and does not terminate the run: the bare
`except Exception` handler (line 212) tallies the item as failed and
the loop processes the second item to success. -/
theorem c9_counterexample :
    runDownloader defaultAllowedLicenses
      [(⟨"u1".data, "A".data, true, "cc0".data⟩,
        ⟨none, 200, true, some "x/a.zip".data, none, none, none⟩),
       (⟨"u2".data, "B".data, true, "cc0".data⟩,
        ⟨none, 200, false, some "x/b.zip".data, none, none, none⟩)] [] =
      ([(Outcome.failed, 1, 0), (Outcome.success, 1, 1)],
       ["B_u2.zip".data]) := by
  decide

/-- Claim C9 (amended): every exception raised inside the per-item
`try` block is caught by the bare `except Exception` handler and
tallied as failed, whatever its kind — transport errors of the
resolution request, JSON decoding errors, transport errors of the
payload transfer, filesystem errors of the write — and the run always
continues: the loop tallies exactly one outcome per entry. -/
theorem c9_catch_all (allowed : List Str) (items : List (Model × ItemEnv))
    (fs : List Str) (m : Model) (env : ItemEnv) :
    ((runDownloader allowed items fs).1.length = items.length) ∧
    (licenseMatch m.licenseLabel allowed = true →
     m.isDownloadable = true →
      ((env.resolutionRaises.isSome = true →
          processItem allowed m env fs = ⟨Outcome.failed, fs, 1, 0⟩) ∧
       (env.resolutionRaises = none → env.resolutionStatus = 200 →
          env.jsonRaises = true →
          processItem allowed m env fs = ⟨Outcome.failed, fs, 1, 0⟩) ∧
       (∀ url, env.resolutionRaises = none → env.resolutionStatus = 200 →
          env.jsonRaises = false → resolveUrl env = some url →
          downloadFilename m url ∉ fs →
          env.downloadRaises.isSome = true →
          processItem allowed m env fs = ⟨Outcome.failed, fs, 1, 1⟩) ∧
       (∀ url, env.resolutionRaises = none → env.resolutionStatus = 200 →
          env.jsonRaises = false → resolveUrl env = some url →
          downloadFilename m url ∉ fs →
          env.downloadRaises = none → env.writeRaises.isSome = true →
          processItem allowed m env fs =
            ⟨Outcome.failed, downloadFilename m url :: fs, 1, 1⟩))) := by
  refine ⟨runDownloader_length allowed items fs, ?_⟩
  intro hl hd
  have hnl : ¬(licenseMatch m.licenseLabel allowed = false) := by simp [hl]
  have hnd : ¬(m.isDownloadable = false) := by simp [hd]
  refine ⟨?_, ?_, ?_, ?_⟩
  · intro hres
    rw [processItem, if_neg hnl, if_neg hnd, if_pos hres]
  · intro hres hst hj
    rw [processItem, if_neg hnl, if_neg hnd,
      if_neg (by simp [hres]), if_neg (by simp [hst]), if_pos hj]
  · intro url hres hst hj hurl hfp hdl
    rw [processItem, if_neg hnl, if_neg hnd,
      if_neg (by simp [hres]), if_neg (by simp [hst]),
      if_neg (by simp [hj]), hurl]
    simp [hfp, hdl]
  · intro url hres hst hj hurl hfp hdl hw
    rw [processItem, if_neg hnl, if_neg hnd,
      if_neg (by simp [hres]), if_neg (by simp [hst]),
      if_neg (by simp [hj]), hurl]
    simp [hfp, hdl, hw]

/-- Claim C9 (amended), witness: a concrete item whose JSON decoding
raises is tallied failed after one resolution request and no
transfer. -/
theorem c9_catch_all_witness :
    ((runDownloader defaultAllowedLicenses [] []).1.length = 0) ∧
    processItem defaultAllowedLicenses
      ⟨"u1".data, "A".data, true, "cc0".data⟩
      ⟨none, 200, true, some "x/a.zip".data, none, none, none⟩ [] =
      ⟨Outcome.failed, [], 1, 0⟩ := by
  have h := c9_catch_all defaultAllowedLicenses [] []
    ⟨"u1".data, "A".data, true, "cc0".data⟩
    ⟨none, 200, true, some "x/a.zip".data, none, none, none⟩
  exact ⟨h.1, ((h.2 (by decide) rfl).2.1) rfl rfl rfl⟩

theorem processItem_eq_of_url (allowed : List Str) (m : Model)
    (env : ItemEnv) (fs : List Str) (url : Str)
    (hl : licenseMatch m.licenseLabel allowed = true)
    (hd : m.isDownloadable = true)
    (hres : env.resolutionRaises = none)
    (hst : env.resolutionStatus = 200)
    (hj : env.jsonRaises = false)
    (hu : resolveUrl env = some url) :
    processItem allowed m env fs =
      if downloadFilename m url ∈ fs then ⟨Outcome.success, fs, 1, 0⟩
      else if env.downloadRaises.isSome then ⟨Outcome.failed, fs, 1, 1⟩
      else if env.writeRaises.isSome then
        ⟨Outcome.failed, downloadFilename m url :: fs, 1, 1⟩
      else ⟨Outcome.success, downloadFilename m url :: fs, 1, 1⟩ := by
  rw [processItem, if_neg (by simp [hl]), if_neg (by simp [hd]),
    if_neg (by simp [hres]), if_neg (by simp [hst]),
    if_neg (by simp [hj]), hu]

theorem processItem_eq_skip (allowed : List Str) (m : Model)
    (env : ItemEnv) (fs : List Str)
    (h : licenseMatch m.licenseLabel allowed = false) :
    processItem allowed m env fs = ⟨Outcome.skippedLicense, fs, 0, 0⟩ := by
  rw [processItem, if_pos h]

theorem processItem_eq_nodl (allowed : List Str) (m : Model)
    (env : ItemEnv) (fs : List Str)
    (h1 : ¬(licenseMatch m.licenseLabel allowed = false))
    (h2 : m.isDownloadable = false) :
    processItem allowed m env fs = ⟨Outcome.failed, fs, 0, 0⟩ := by
  rw [processItem, if_neg h1, if_pos h2]

theorem processItem_eq_resraise (allowed : List Str) (m : Model)
    (env : ItemEnv) (fs : List Str)
    (h1 : ¬(licenseMatch m.licenseLabel allowed = false))
    (h2 : ¬(m.isDownloadable = false))
    (h3 : env.resolutionRaises.isSome = true) :
    processItem allowed m env fs = ⟨Outcome.failed, fs, 1, 0⟩ := by
  rw [processItem, if_neg h1, if_neg h2, if_pos h3]

theorem processItem_eq_badstatus (allowed : List Str) (m : Model)
    (env : ItemEnv) (fs : List Str)
    (h1 : ¬(licenseMatch m.licenseLabel allowed = false))
    (h2 : ¬(m.isDownloadable = false))
    (h3 : ¬(env.resolutionRaises.isSome = true))
    (h4 : env.resolutionStatus ≠ 200) :
    processItem allowed m env fs = ⟨Outcome.failed, fs, 1, 0⟩ := by
  rw [processItem, if_neg h1, if_neg h2, if_neg h3, if_pos h4]

theorem processItem_eq_jsonraise (allowed : List Str) (m : Model)
    (env : ItemEnv) (fs : List Str)
    (h1 : ¬(licenseMatch m.licenseLabel allowed = false))
    (h2 : ¬(m.isDownloadable = false))
    (h3 : ¬(env.resolutionRaises.isSome = true))
    (h4 : ¬(env.resolutionStatus ≠ 200))
    (h5 : env.jsonRaises = true) :
    processItem allowed m env fs = ⟨Outcome.failed, fs, 1, 0⟩ := by
  rw [processItem, if_neg h1, if_neg h2, if_neg h3, if_neg h4, if_pos h5]

theorem processItem_eq_nourl (allowed : List Str) (m : Model)
    (env : ItemEnv) (fs : List Str)
    (h1 : ¬(licenseMatch m.licenseLabel allowed = false))
    (h2 : ¬(m.isDownloadable = false))
    (h3 : ¬(env.resolutionRaises.isSome = true))
    (h4 : ¬(env.resolutionStatus ≠ 200))
    (h5 : ¬(env.jsonRaises = true))
    (hu : resolveUrl env = none) :
    processItem allowed m env fs = ⟨Outcome.failed, fs, 1, 0⟩ := by
  rw [processItem, if_neg h1, if_neg h2, if_neg h3, if_neg h4,
    if_neg h5, hu]

theorem processItem_fs_mono (allowed : List Str) (m : Model)
    (env : ItemEnv) (fs : List Str) :
    fs ⊆ (processItem allowed m env fs).fs := by
  rw [processItem]
  repeat' split
  all_goals first
    | exact List.Subset.refl fs
    | exact List.subset_cons_self _ _

theorem runDownloader_fs_mono (allowed : List Str)
    (items : List (Model × ItemEnv)) :
    ∀ fs : List Str, fs ⊆ (runDownloader allowed items fs).2 := by
  induction items with
  | nil => intro fs; exact List.Subset.refl fs
  | cons it rest ih =>
    intro fs
    obtain ⟨m, env⟩ := it
    simp only [runDownloader]
    exact List.Subset.trans (processItem_fs_mono allowed m env fs)
      (ih (processItem allowed m env fs).fs)

theorem processItem_rerun (allowed : List Str) (m : Model) (env : ItemEnv)
    (fs fs' : List Str) (h1 : fs ⊆ fs')
    (h2 : (processItem allowed m env fs).fs ⊆ fs') :
    (processItem allowed m env fs').fs = fs' ∧
    ((processItem allowed m env fs).outcome = Outcome.success ∧
      (processItem allowed m env fs).transferRequests = 1 →
      processItem allowed m env fs' = ⟨Outcome.success, fs', 1, 0⟩) := by
  by_cases hl : licenseMatch m.licenseLabel allowed = false
  · rw [processItem_eq_skip allowed m env fs hl,
      processItem_eq_skip allowed m env fs' hl]
    exact ⟨rfl, fun h => by simp at h⟩
  · by_cases hd : m.isDownloadable = false
    · rw [processItem_eq_nodl allowed m env fs hl hd,
        processItem_eq_nodl allowed m env fs' hl hd]
      exact ⟨rfl, fun h => by simp at h⟩
    · by_cases hres : env.resolutionRaises.isSome = true
      · rw [processItem_eq_resraise allowed m env fs hl hd hres,
          processItem_eq_resraise allowed m env fs' hl hd hres]
        exact ⟨rfl, fun h => by simp at h⟩
      · by_cases hst : env.resolutionStatus ≠ 200
        · rw [processItem_eq_badstatus allowed m env fs hl hd hres hst,
            processItem_eq_badstatus allowed m env fs' hl hd hres hst]
          exact ⟨rfl, fun h => by simp at h⟩
        · by_cases hj : env.jsonRaises = true
          · rw [processItem_eq_jsonraise allowed m env fs hl hd hres hst hj,
              processItem_eq_jsonraise allowed m env fs' hl hd hres hst hj]
            exact ⟨rfl, fun h => by simp at h⟩
          · cases hu : resolveUrl env with
            | none =>
              rw [processItem_eq_nourl allowed m env fs hl hd hres hst hj hu,
                processItem_eq_nourl allowed m env fs' hl hd hres hst hj hu]
              exact ⟨rfl, fun h => by simp at h⟩
            | some url =>
              have hl' : licenseMatch m.licenseLabel allowed = true := by
                cases h : licenseMatch m.licenseLabel allowed
                · exact absurd h hl
                · rfl
              have hd' : m.isDownloadable = true := by
                cases h : m.isDownloadable
                · exact absurd h hd
                · rfl
              have hres' : env.resolutionRaises = none := by
                cases h : env.resolutionRaises
                · rfl
                · rw [h] at hres
                  exact absurd rfl hres
              have hst' : env.resolutionStatus = 200 := by
                by_cases h : env.resolutionStatus = 200
                · exact h
                · exact absurd h hst
              have hj' : env.jsonRaises = false := by
                cases h : env.jsonRaises
                · rfl
                · exact absurd h hj
              have heq := processItem_eq_of_url allowed m env fs url
                hl' hd' hres' hst' hj' hu
              have heq' := processItem_eq_of_url allowed m env fs' url
                hl' hd' hres' hst' hj' hu
              by_cases hfp : downloadFilename m url ∈ fs
              · have hfp' : downloadFilename m url ∈ fs' := h1 hfp
                rw [heq, if_pos hfp] 
                rw [heq', if_pos hfp']
                exact ⟨rfl, fun h => by simp at h⟩
              · by_cases hdl : env.downloadRaises.isSome = true
                · rw [heq, if_neg hfp, if_pos hdl]
                  rw [heq']
                  constructor
                  · by_cases hfp' : downloadFilename m url ∈ fs'
                    · rw [if_pos hfp']
                    · rw [if_neg hfp', if_pos hdl]
                  · intro h
                    simp at h
                · by_cases hw : env.writeRaises.isSome = true
                  · rw [heq, if_neg hfp, if_neg hdl, if_pos hw] at h2 ⊢
                    have hfp' : downloadFilename m url ∈ fs' :=
                      h2 (List.mem_cons_self _ _)
                    rw [heq', if_pos hfp']
                    exact ⟨rfl, fun h => by simp at h⟩
                  · rw [heq, if_neg hfp, if_neg hdl, if_neg hw] at h2 ⊢
                    have hfp' : downloadFilename m url ∈ fs' :=
                      h2 (List.mem_cons_self _ _)
                    rw [heq', if_pos hfp']
                    exact ⟨rfl, fun _ => rfl⟩

theorem runDownloader_rerun (allowed : List Str) :
    ∀ (items : List (Model × ItemEnv)) (fs fs' : List Str),
      fs ⊆ fs' → (runDownloader allowed items fs).2 ⊆ fs' →
      (runDownloader allowed items fs').2 = fs' ∧
      ∀ p ∈ (runDownloader allowed items fs).1.zip
          (runDownloader allowed items fs').1,
        p.1 = (Outcome.success, 1, 1) → p.2 = (Outcome.success, 1, 0) := by
  intro items
  induction items with
  | nil =>
    intro fs fs' h1 h2
    refine ⟨rfl, fun p hp => absurd hp ?_⟩
    simp [runDownloader]
  | cons it rest ih =>
    intro fs fs' h1 h2
    obtain ⟨m, env⟩ := it
    have h2' : (runDownloader allowed rest
        (processItem allowed m env fs).fs).2 ⊆ fs' := h2
    have hrfs : (processItem allowed m env fs).fs ⊆ fs' :=
      List.Subset.trans (runDownloader_fs_mono allowed rest _) h2'
    have hper := processItem_rerun allowed m env fs fs' h1 hrfs
    have hih := ih (processItem allowed m env fs).fs fs' hrfs h2'
    constructor
    · show (runDownloader allowed rest
        (processItem allowed m env fs').fs).2 = fs'
      rw [hper.1]
      exact hih.1
    · intro p hp hp1
      rw [show runDownloader allowed ((m, env) :: rest) fs =
        (((processItem allowed m env fs).outcome,
          (processItem allowed m env fs).resolutionRequests,
          (processItem allowed m env fs).transferRequests) ::
            (runDownloader allowed rest (processItem allowed m env fs).fs).1,
         (runDownloader allowed rest (processItem allowed m env fs).fs).2)
        from rfl] at hp
      rw [show runDownloader allowed ((m, env) :: rest) fs' =
        (((processItem allowed m env fs').outcome,
          (processItem allowed m env fs').resolutionRequests,
          (processItem allowed m env fs').transferRequests) ::
            (runDownloader allowed rest (processItem allowed m env fs').fs).1,
         (runDownloader allowed rest (processItem allowed m env fs').fs).2)
        from rfl] at hp
      rw [List.zip_cons_cons] at hp
      rcases List.mem_cons.mp hp with hph | hpt
      · rw [hph] at hp1 ⊢
        have ho : (processItem allowed m env fs).outcome = Outcome.success :=
          congrArg Prod.fst hp1
        have ht : (processItem allowed m env fs).transferRequests = 1 :=
          congrArg (fun q => q.2.2) hp1
        show ((processItem allowed m env fs').outcome,
          (processItem allowed m env fs').resolutionRequests,
          (processItem allowed m env fs').transferRequests) =
            (Outcome.success, 1, 0)
        rw [hper.2 ⟨ho, ht⟩]
      · rw [hper.1] at hpt
        exact hih.2 p hpt hp1

/-- Claim C8: re-running the downloader on the same catalog, same item
environments and the filesystem produced by the first run leaves the
filesystem exactly as the first run left it, and every item that was
downloaded in the first run (outcome success with one transfer) is
reported in the second run as already existing: outcome success with
zero transfers. -/
theorem c8_idempotent_rerun (allowed : List Str)
    (items : List (Model × ItemEnv)) (fs0 : List Str) :
    (runDownloader allowed items (runDownloader allowed items fs0).2).2 =
      (runDownloader allowed items fs0).2 ∧
    ∀ p ∈ (runDownloader allowed items fs0).1.zip
        (runDownloader allowed items (runDownloader allowed items fs0).2).1,
      p.1 = (Outcome.success, 1, 1) → p.2 = (Outcome.success, 1, 0) := by
  exact runDownloader_rerun allowed items fs0
    (runDownloader allowed items fs0).2
    (runDownloader_fs_mono allowed items fs0) (List.Subset.refl _)

/-- Claim C8, witness: one downloadable CC0 item downloaded by a first
run from an empty directory; the second run leaves the file set
unchanged and reports the item as success with zero transfers. -/
theorem c8_idempotent_rerun_witness :
    ((runDownloader defaultAllowedLicenses
      [(⟨"u2".data, "B".data, true, "cc0".data⟩,
        ⟨none, 200, false, some "x/b.zip".data, none, none, none⟩)]
      ((runDownloader defaultAllowedLicenses
        [(⟨"u2".data, "B".data, true, "cc0".data⟩,
          ⟨none, 200, false, some "x/b.zip".data, none, none, none⟩)]
        []).2)).2 =
      (runDownloader defaultAllowedLicenses
        [(⟨"u2".data, "B".data, true, "cc0".data⟩,
          ⟨none, 200, false, some "x/b.zip".data, none, none, none⟩)]
        []).2) ∧
    (((Outcome.success, 1, 1), (Outcome.success, 1, 0)) :
        (Outcome × Nat × Nat) × (Outcome × Nat × Nat)).2 =
      (Outcome.success, 1, 0) := by
  refine ⟨(c8_idempotent_rerun defaultAllowedLicenses
    [(⟨"u2".data, "B".data, true, "cc0".data⟩,
      ⟨none, 200, false, some "x/b.zip".data, none, none, none⟩)] []).1, ?_⟩
  exact (c8_idempotent_rerun defaultAllowedLicenses
    [(⟨"u2".data, "B".data, true, "cc0".data⟩,
      ⟨none, 200, false, some "x/b.zip".data, none, none, none⟩)] []).2
    ((Outcome.success, 1, 1), (Outcome.success, 1, 0))
    (by decide) (by decide)
